import Mathlib

/-!
Verification of the DBMA orchestration core (src/core/agent.py,
src/core/persistence.py) against its natural-language specification.

The Python code is shallowly embedded: pure functions become Lean
functions; the text-generation oracle, the relational engine and the
durable store are external collaborators and are passed in as explicit
function/value parameters at the exact call boundary the Python code
uses them.  Machine behaviour notes:

* Python string falsiness (`if not s:` true for `None` and `""`) is
  modelled explicitly wherever the source relies on it.
* `str.strip()` / `str.split()` / `str.upper()` / `str.lower()` are
  modelled over their ASCII behaviour (`pyStrip`, `pySplitWs`,
  `pyUpper`, `pyLower`); all queries, keywords and identifiers the
  claims quantify over are ASCII, where the model agrees exactly with
  CPython.
* SHA-256 (`hashlib.sha256(...).hexdigest()`) is implemented in full
  over `Nat` with explicit `% 2^32` arithmetic.
-/

namespace DBMA

/-! ### Python string primitives -/

/-- Python whitespace for `str.strip`/`str.split` (ASCII set: space,
tab, newline, carriage return, vertical tab, form feed — code points
32, 9, 10, 13, 11, 12). -/
def pyIsSpace (c : Char) : Bool :=
  c.toNat = 32 || c.toNat = 9 || c.toNat = 10 || c.toNat = 13
    || c.toNat = 11 || c.toNat = 12

/-- Python `str.strip()` with no arguments: remove leading and trailing
whitespace. -/
def pyStrip (s : String) : String :=
  ⟨((s.data.dropWhile pyIsSpace).reverse.dropWhile pyIsSpace).reverse⟩

/-- Python `str.upper()` (ASCII fragment; `Char.toUpper` maps exactly
the 26 basic latin lowercase letters). -/
def pyUpper (s : String) : String := ⟨s.data.map Char.toUpper⟩

/-- Python `str.lower()` (ASCII fragment; `Char.toLower` maps exactly
the 26 basic latin uppercase letters). -/
def pyLower (s : String) : String := ⟨s.data.map Char.toLower⟩

/-- Worker for `pySplitWs`: `acc` holds the current token's characters
in reverse. -/
def pySplitWsAux : List Char → List Char → List String
  | [], acc => if acc = [] then [] else [⟨acc.reverse⟩]
  | c :: cs, acc =>
    if pyIsSpace c then
      if acc = [] then pySplitWsAux cs []
      else ⟨acc.reverse⟩ :: pySplitWsAux cs []
    else pySplitWsAux cs (c :: acc)

/-- Python `str.split()` with no arguments: the maximal non-whitespace
runs, in order (empty fields never occur). -/
def pySplitWs (s : String) : List String :=
  pySplitWsAux s.data []

/-! ### SHA-256 over `Nat` (for `PersistenceManager.generate_thread_id`) -/

/-- Right-rotate a 32-bit word (value < 2^32) by `n` bits. -/
def rotr32 (n x : Nat) : Nat :=
  (x / 2 ^ n) + (x % 2 ^ n) * 2 ^ (32 - n)

/-- UTF-8 encoding of one code point (Python `str.encode()`). -/
def utf8EncodeChar (c : Char) : List Nat :=
  let n := c.toNat
  if n < 0x80 then [n]
  else if n < 0x800 then [0xC0 + n / 0x40, 0x80 + n % 0x40]
  else if n < 0x10000 then
    [0xE0 + n / 0x1000, 0x80 + (n / 0x40) % 0x40, 0x80 + n % 0x40]
  else
    [0xF0 + n / 0x40000, 0x80 + (n / 0x1000) % 0x40,
     0x80 + (n / 0x40) % 0x40, 0x80 + n % 0x40]

/-- UTF-8 byte sequence of a string. -/
def utf8Bytes (s : String) : List Nat :=
  s.data.flatMap utf8EncodeChar

/-- Big-endian byte representation of `n` in exactly `k` bytes
(truncating to `n % 256^k`). -/
def beBytes : Nat → Nat → List Nat
  | 0, _ => []
  | k + 1, n => beBytes k (n / 256) ++ [n % 256]

/-- SHA-256 message padding: append `0x80`, zero bytes to 56 mod 64,
then the bit length as a 64-bit big-endian integer. -/
def sha256pad (msg : List Nat) : List Nat :=
  let len := msg.length
  let zeros := (119 - len % 64) % 64
  msg ++ [0x80] ++ List.replicate zeros 0 ++ beBytes 8 (len * 8)

/-- Group a byte list into big-endian 32-bit words. -/
def beWords : List Nat → List Nat
  | b0 :: b1 :: b2 :: b3 :: rest =>
    (b0 * 0x1000000 + b1 * 0x10000 + b2 * 0x100 + b3) :: beWords rest
  | _ => []

/-- SHA-256 round constants (FIPS 180-4, in decimal). -/
def sha256K : List Nat :=
  [1116352408, 1899447441, 3049323471, 3921009573, 961987163,
   1508970993, 2453635748, 2870763221, 3624381080, 310598401,
   607225278, 1426881987, 1925078388, 2162078206, 2614888103,
   3248222580, 3835390401, 4022224774, 264347078, 604807628,
   770255983, 1249150122, 1555081692, 1996064986, 2554220882,
   2821834349, 2952996808, 3210313671, 3336571891, 3584528711,
   113926993, 338241895, 666307205, 773529912, 1294757372,
   1396182291, 1695183700, 1986661051, 2177026350, 2456956037,
   2730485921, 2820302411, 3259730800, 3345764771, 3516065817,
   3600352804, 4094571909, 275423344, 430227734, 506948616,
   659060556, 883997877, 958139571, 1322822218, 1537002063,
   1747873779, 1955562222, 2024104815, 2227730452, 2361852424,
   2428436474, 2756734187, 3204031479, 3329325298]

/-- SHA-256 initial hash value (FIPS 180-4, in decimal). -/
def sha256H0 : List Nat :=
  [1779033703, 3144134277, 1013904242, 2773480762,
   1359893119, 2600822924, 528734635, 1541459225]

/-- Extend the 16 message-schedule words of one block to 64. -/
def sha256Schedule (ws : List Nat) : List Nat :=
  (List.range 48).foldl
    (fun w i =>
      let t := i + 16
      let w15 := w.getD (t - 15) 0
      let w2 := w.getD (t - 2) 0
      let s0 := (rotr32 7 w15) ^^^ (rotr32 18 w15) ^^^ (w15 / 2 ^ 3)
      let s1 := (rotr32 17 w2) ^^^ (rotr32 19 w2) ^^^ (w2 / 2 ^ 10)
      w ++ [(w.getD (t - 16) 0 + s0 + w.getD (t - 7) 0 + s1) % 0x100000000])
    ws

/-- SHA-256 compression of one 16-word block into the running hash. -/
def sha256Compress (H : List Nat) (blockWords : List Nat) : List Nat :=
  let w := sha256Schedule blockWords
  let a0 := H.getD 0 0
  let b0 := H.getD 1 0
  let c0 := H.getD 2 0
  let d0 := H.getD 3 0
  let e0 := H.getD 4 0
  let f0 := H.getD 5 0
  let g0 := H.getD 6 0
  let h0 := H.getD 7 0
  let st := (List.range 64).foldl
    (fun st t =>
      match st with
      | (a, b, c, d, e, f, g, h) =>
        let kt := sha256K.getD t 0
        let wt := w.getD t 0
        let S1 := (rotr32 6 e) ^^^ (rotr32 11 e) ^^^ (rotr32 25 e)
        let ch := (e &&& f) ^^^ ((e ^^^ 0xFFFFFFFF) &&& g)
        let temp1 := (h + S1 + ch + kt + wt) % 0x100000000
        let S0 := (rotr32 2 a) ^^^ (rotr32 13 a) ^^^ (rotr32 22 a)
        let maj := (a &&& b) ^^^ (a &&& c) ^^^ (b &&& c)
        let temp2 := (S0 + maj) % 0x100000000
        ((temp1 + temp2) % 0x100000000, a, b, c,
         (d + temp1) % 0x100000000, e, f, g))
    (a0, b0, c0, d0, e0, f0, g0, h0)
  match st with
  | (a, b, c, d, e, f, g, h) =>
    [(a0 + a) % 0x100000000, (b0 + b) % 0x100000000,
     (c0 + c) % 0x100000000, (d0 + d) % 0x100000000,
     (e0 + e) % 0x100000000, (f0 + f) % 0x100000000,
     (g0 + g) % 0x100000000, (h0 + h) % 0x100000000]

/-- Fold SHA-256 compression over consecutive 64-byte blocks; `fuel`
is an upper bound on the number of remaining bytes. -/
def sha256Blocks (fuel : Nat) (H : List Nat) (bytes : List Nat) : List Nat :=
  match fuel with
  | 0 => H
  | fuel + 1 =>
    match bytes with
    | [] => H
    | _ => sha256Blocks fuel (sha256Compress H (beWords (bytes.take 64))) (bytes.drop 64)

/-- One hexadecimal digit (lowercase, as Python `hexdigest`):
code point 48 + n for digits, 87 + n for `a`-`f`. -/
def hexChar (n : Nat) : Char :=
  if n < 10 then Char.ofNat (48 + n) else Char.ofNat (87 + n)

/-- Lowercase hex rendering of one 32-bit word (8 digits). -/
def hexWord (n : Nat) : List Char :=
  (List.range 8).map fun i => hexChar ((n / 2 ^ (4 * (7 - i))) % 16)

/-- `hashlib.sha256(s.encode()).hexdigest()`. -/
def sha256hex (s : String) : String :=
  let bytes := sha256pad (utf8Bytes s)
  let Hf := sha256Blocks bytes.length sha256H0 bytes
  ⟨(Hf.map hexWord).flatten⟩

/-! ### Session Registry (`PersistenceManager.generate_thread_id`,
`PersistenceManager.get_or_create_session`) -/

/-- `PersistenceManager.generate_thread_id`: deterministic thread id,
`"thread_" + sha256(f"{host}::{user}::{database}").hexdigest()[:32]`. -/
def generate_thread_id (host user database : String) : String :=
  "thread_" ++ (sha256hex (host ++ "::" ++ user ++ "::" ++ database)).take 32

/-- `PersistenceManager.get_or_create_session` at the durable-store
boundary.  `store_ok` is whether the upsert of the session row raised;
the second component records whether the session row was persisted.
Both the `try` branch and the `except` branch of the source return the
locally computed `thread_id`. -/
def get_or_create_session (store_ok : Bool) (host user database_name : String) :
    String × Bool :=
  let thread_id := generate_thread_id host user database_name
  if store_ok then (thread_id, true)
  else (thread_id, false)

/-! ### Self-Healing Execution Loop (`DBMAAgent.execute_with_healing`) -/

/-- `MAX_HEAL_ATTEMPTS` (src/core/agent.py line 63). -/
def MAX_HEAL_ATTEMPTS : Nat := 3

/-- `RECENT_MESSAGES_COUNT` (src/core/agent.py line 75). -/
def RECENT_MESSAGES_COUNT : Nat := 40

/-- `QueryResult` (src/core/mysql_manager.py).  Fields not consulted by
the orchestration layer (columns, rows, affected_rows, last_insert_id,
query_type) are omitted. -/
structure QueryResult where
  success : Bool
  query : String
  error : Option String := none
  execution_ms : Nat := 0
deriving Repr, DecidableEq

/-- `HealAttempt` (src/core/agent.py). -/
structure HealAttempt where
  attempt_no : Nat
  original_sql : String
  error_message : String
  corrected_sql : String
  success : Bool
  execution_ms : Nat := 0
deriving Repr, DecidableEq

/-- Python `result.error or "Unknown error"` (`None` and `""` are
falsy). -/
def errorOrUnknown (e : Option String) : String :=
  match e with
  | none => "Unknown error"
  | some s => if s = "" then "Unknown error" else s

/-- `heal_log[-1].success = True; heal_log[-1].execution_ms = ...`:
mark the last heal-log entry successful. -/
def markLastSuccess (ms : Nat) : List HealAttempt → List HealAttempt
  | [] => []
  | [a] => [{ a with success := true, execution_ms := ms }]
  | a :: rest => a :: markLastSuccess ms rest

/-- The `for attempt in range(MAX_HEAL_ATTEMPTS + 1)` loop body of
`execute_with_healing`.  `engine i q` is the relational engine's reply
to the `i`-th engine call (query text `q`); `healer i q e` is what
`_heal_sql` returns at attempt `i` for failing query `q` and error text
`e` (`none` models both an LLM exception and `_extract_sql` finding no
query).  `fuel` bounds the remaining iterations; the top-level call
passes `MAX_HEAL_ATTEMPTS`, which makes the fuel-exhaustion branch
(the source's unreachable trailing `return`) dead code.  The third
component of the result counts engine executions performed. -/
def healLoop (engine : Nat → String → QueryResult)
    (healer : Nat → String → String → Option String) :
    Nat → Nat → String → List HealAttempt →
    QueryResult × List HealAttempt × Nat
  | fuel, attempt, current_sql, heal_log =>
    let result := engine attempt current_sql
    if result.success then
      (result,
       (if attempt > 0 then markLastSuccess result.execution_ms heal_log
        else heal_log), 1)
    else
      let error_msg := errorOrUnknown result.error
      if attempt = MAX_HEAL_ATTEMPTS then
        (result, heal_log, 1)
      else
        match healer attempt current_sql error_msg with
        | none => (result, heal_log, 1)
        | some corrected_sql =>
          if corrected_sql = "" ∨ pyStrip corrected_sql = pyStrip current_sql then
            (result, heal_log, 1)
          else
            match fuel with
            | 0 => (result, heal_log, 1)
            | fuel' + 1 =>
              let log' := heal_log ++
                [{ attempt_no := attempt + 1, original_sql := current_sql,
                   error_message := error_msg, corrected_sql := corrected_sql,
                   success := false }]
              let rest := healLoop engine healer fuel' (attempt + 1) corrected_sql log'
              (rest.1, rest.2.1, rest.2.2 + 1)

/-- `DBMAAgent.execute_with_healing`.  `current_database` is
`self._current_database` (`if not self._current_database:` is true for
`None` and for the empty string).  Returns the final `QueryResult`, the
heal log, and the number of engine calls performed. -/
def execute_with_healing (current_database : Option String)
    (engine : Nat → String → QueryResult)
    (healer : Nat → String → String → Option String)
    (sql : String) : QueryResult × List HealAttempt × Nat :=
  if current_database = none ∨ current_database = some "" then
    ({ success := false, query := sql, error := some "No database selected" }, [], 0)
  else
    healLoop engine healer MAX_HEAL_ATTEMPTS 0 sql []

/-! ### Rolling Memory Manager (`DBMAAgent._build_rolling_context`,
`DBMAAgent.update_summary_if_needed`, `DBMAAgent._summarize_messages`,
and the persistence reads they use).

A partition's durable state is its message list (held by the store
sorted by `sequence_no ASC`, which is strictly increasing per thread)
plus the optional summary row.  The summarization LLM call together
with the `<think>`-block stripping applied to its raw output is the
oracle boundary: `oracle existing toFold = none` models the call
raising, `some t` models it returning text `t`. -/

/-- `ChatMessage` (src/core/persistence.py).  `message_id`,
`query_result`, `created_at` and `metadata` are not consulted by the
memory manager and are omitted. -/
structure ChatMessage where
  role : String
  content : String
  sql_query : Option String := none
  sequence_no : Nat := 0
deriving Repr, DecidableEq

/-- One row of `dbma_conversation_summary`. -/
structure SummaryRecord where
  summary_text : String
  summarized_up_to_seq : Nat
  message_count_summarized : Nat
deriving Repr, DecidableEq

/-- Durable state of one partition (thread). -/
structure PartitionState where
  messages : List ChatMessage
  summary : Option SummaryRecord
deriving Repr, DecidableEq

/-- `PersistenceManager.get_messages_after_seq`: all messages with
`sequence_no > after_seq`, ordered by `sequence_no ASC`. -/
def get_messages_after_seq (msgs : List ChatMessage) (after_seq : Nat) :
    List ChatMessage :=
  msgs.filter (fun m => after_seq < m.sequence_no)

/-- `PersistenceManager.get_recent_messages`: the `n` most recent
messages (`ORDER BY sequence_no DESC LIMIT n`, then re-sorted `ASC`). -/
def get_recent_messages (msgs : List ChatMessage) (n : Nat) :
    List ChatMessage :=
  (msgs.reverse.take n).reverse

/-- One entry of the LLM-ready history. -/
structure LlmMessage where
  role : String
  content : String
deriving Repr, DecidableEq

/-- The `ROLE_MAP` lookup with default `"user"` in
`format_history_for_llm`. -/
def roleMap (role : String) : String :=
  if role = "human" then "user"
  else if role = "user" then "user"
  else if role = "assistant" then "assistant"
  else "user"

/-- One iteration of the `format_history_for_llm` loop
(`include_sql=True`, the callers' default): map the role, append the
SQL block to assistant messages, skip messages whose content strips to
empty. -/
def formatOneMessage (msg : ChatMessage) : Option LlmMessage :=
  let role := roleMap msg.role
  let content := msg.content
  let content :=
    if (match msg.sql_query with | some q => q ≠ "" | none => False : Bool)
        ∧ role = "assistant" then
      content ++ "\n\nGenerated SQL:\n```sql\n" ++
        (msg.sql_query.getD "") ++ "\n```"
    else content
  if pyStrip content ≠ "" then some { role := role, content := content }
  else none

/-- `PersistenceManager.format_history_for_llm` (`include_sql=True`). -/
def format_history_for_llm (msgs : List ChatMessage) : List LlmMessage :=
  msgs.filterMap formatOneMessage

/-- The `{"summary": ..., "recent_formatted": ...}` payload returned by
`_build_rolling_context`. -/
structure RollingContext where
  summary : String
  recent_formatted : List LlmMessage
deriving Repr, DecidableEq

/-- `DBMAAgent._build_rolling_context`: load the summary (if any) and
the unsummarized tail, cap to the most recent `RECENT_MESSAGES_COUNT`
entries (`unsummarized[-RECENT_MESSAGES_COUNT:]`). -/
def build_rolling_context (st : PartitionState) : RollingContext :=
  match st.summary with
  | some existing =>
    let unsummarized :=
      get_messages_after_seq st.messages existing.summarized_up_to_seq
    let to_keep :=
      if unsummarized.length > RECENT_MESSAGES_COUNT then
        unsummarized.drop (unsummarized.length - RECENT_MESSAGES_COUNT)
      else unsummarized
    { summary := existing.summary_text,
      recent_formatted := format_history_for_llm to_keep }
  | none =>
    let unsummarized := get_recent_messages st.messages RECENT_MESSAGES_COUNT
    let to_keep :=
      if unsummarized.length > RECENT_MESSAGES_COUNT then
        unsummarized.drop (unsummarized.length - RECENT_MESSAGES_COUNT)
      else unsummarized
    { summary := "",
      recent_formatted := format_history_for_llm to_keep }

/-- `DBMAAgent._summarize_messages` at the oracle boundary: on an LLM
exception (`oracle ... = none`) the caught handler returns
`existing_summary`; otherwise the stripped response is returned unless
it is empty, in which case `existing_summary` is kept. -/
def summarize_messages (oracle : String → List ChatMessage → Option String)
    (existing_summary : String) (new_messages : List ChatMessage) : String :=
  match oracle existing_summary new_messages with
  | none => existing_summary
  | some raw =>
    let result := pyStrip raw
    if result = "" then existing_summary else result

/-- The `last_seq` local of `update_summary_if_needed`
(`existing["summarized_up_to_seq"] if existing else 0`). -/
def last_seq_of (st : PartitionState) : Nat :=
  (st.summary.map (·.summarized_up_to_seq)).getD 0

/-- `DBMAAgent.update_summary_if_needed` acting on the partition state
(the `save_conversation_summary` upsert succeeding).  The unreachable
`to_fold = []` case corresponds to the source's `to_fold[-1]` raising
`IndexError`, which the surrounding `except` turns into a no-op. -/
def update_summary_if_needed
    (oracle : String → List ChatMessage → Option String)
    (st : PartitionState) : PartitionState :=
  let unsummarized := get_messages_after_seq st.messages (last_seq_of st)
  if unsummarized.length ≤ RECENT_MESSAGES_COUNT then st
  else
    let to_fold := unsummarized.take (unsummarized.length - RECENT_MESSAGES_COUNT)
    match to_fold.getLast? with
    | none => st
    | some lastMsg =>
      { st with summary := some ({
          summary_text := summarize_messages oracle
            ((st.summary.map (·.summary_text)).getD "") to_fold,
          summarized_up_to_seq := lastMsg.sequence_no,
          message_count_summarized :=
            (st.summary.map (·.message_count_summarized)).getD 0 + to_fold.length }) }

/-! ### Refinement Pipeline (`DBMAAgent._run_optimizer_pipeline`,
`DBMAAgent._infer_risk_level`) and `DBMAAgent._is_destructive`.

Each sub-agent call is modelled at its boundary: `none` for the whole
stage models `_invoke_sub_agent` raising (which aborts the pipeline);
inside a stage, the `extracted_sql` / `notes` / `risk` fields are the
values `_extract_sql` and `_extract_tagged_line` produce from the raw
LLM response (`none` = no match found). -/

/-- Python `x or default` for `x : Optional[str]` (`None` and `""` are
falsy). -/
def orElseStr (x : Option String) (default : String) : String :=
  match x with
  | none => default
  | some s => if s = "" then default else s

/-- `sql.strip().split()[0].upper()` as an optional value: `none`
models the `IndexError` raised when the string is all whitespace. -/
def firstTokenUpper (sql : String) : Option String :=
  (pySplitWs (pyStrip sql)).head?.map pyUpper

/-- `DBMAAgent._infer_risk_level`.  `none` models the `IndexError` on a
non-empty all-whitespace string. -/
def infer_risk_level (sql : String) : Option String :=
  if sql = "" then some "LOW"
  else
    match firstTokenUpper sql with
    | none => none
    | some first =>
      some (if first = "DELETE" ∨ first = "DROP" ∨ first = "TRUNCATE" then "HIGH"
            else if first = "UPDATE" ∨ first = "INSERT" ∨ first = "ALTER"
                    ∨ first = "CREATE" then "MEDIUM"
            else "LOW")

/-- The risk-normalization block of `_run_optimizer_pipeline`
(src/core/agent.py lines 1094-1100): take the validator's tagged
`RISK_LEVEL` if truthy, else infer; strip/uppercase; if the result is
not one of the three recognized levels, fall back to the inferred
level. -/
def resolve_risk_level (tagged_risk : Option String) (final_sql : String) :
    Option String :=
  let step1 : Option String :=
    match tagged_risk with
    | none => infer_risk_level final_sql
    | some t => if t = "" then infer_risk_level final_sql else some t
  match step1 with
  | none => none
  | some r0 =>
    let risk_level := pyUpper (pyStrip r0)
    if risk_level = "LOW" ∨ risk_level = "MEDIUM" ∨ risk_level = "HIGH" then
      some risk_level
    else infer_risk_level final_sql

/-- `OptimizerReport` (src/core/agent.py). -/
structure OptimizerReport where
  original_sql : String
  optimized_sql : String
  final_sql : String
  optimizer_notes : String
  validator_notes : String
  risk_level : String
  was_modified : Bool
deriving Repr, DecidableEq

/-- What one sub-agent stage yields after text extraction from the raw
LLM response. -/
structure StageOut where
  extracted_sql : Option String := none
  notes : Option String := none
  risk : Option String := none
deriving Repr, DecidableEq

/-- `DBMAAgent._run_optimizer_pipeline`.  `optimizer_stage` /
`validator_stage` are the two `_invoke_sub_agent` calls; `none` models
the stage raising, which propagates out of the pipeline (the caller
falls back to the original SQL).  The final `none` inside
`resolve_risk_level` models the `IndexError` on an all-whitespace final
query, which likewise propagates. -/
def run_optimizer_pipeline (optimizer_stage validator_stage : Option StageOut)
    (original_sql : String) : Option OptimizerReport :=
  match optimizer_stage with
  | none => none
  | some o1 =>
    let optimized_sql := orElseStr o1.extracted_sql original_sql
    let optimizer_notes := orElseStr o1.notes "No changes needed"
    match validator_stage with
    | none => none
    | some o2 =>
      let final_sql := orElseStr o2.extracted_sql optimized_sql
      let validator_notes := orElseStr o2.notes "Validated — no issues found"
      match resolve_risk_level o2.risk final_sql with
      | none => none
      | some risk_level =>
        some { original_sql := original_sql,
               optimized_sql := optimized_sql,
               final_sql := final_sql,
               optimizer_notes := optimizer_notes,
               validator_notes := validator_notes,
               risk_level := risk_level,
               was_modified :=
                 pyLower (pyStrip final_sql) != pyLower (pyStrip original_sql) }

/-- `DBMAAgent._is_destructive`.  `none` models the `IndexError` on a
non-empty all-whitespace string; `_chat_inner` sets
`requires_confirmation` to exactly this value. -/
def is_destructive (sql : Option String) : Option Bool :=
  match sql with
  | none => some false
  | some s =>
    if s = "" then some false
    else
      match firstTokenUpper s with
      | none => none
      | some first_word =>
        some (first_word = "DELETE" ∨ first_word = "DROP"
              ∨ first_word = "TRUNCATE" ∨ first_word = "UPDATE")

/-! ### Helper lemmas -/

theorem char_toNat_ofNat_valid {n : Nat} (h : n.isValidChar) :
    (Char.ofNat n).toNat = n := by
  simp only [Char.ofNat, dif_pos h, Char.ofNatAux, Char.toNat]
  rfl

theorem pyIsSpace_toLower (c : Char) : pyIsSpace (Char.toLower c) = pyIsSpace c := by
  show pyIsSpace (if c.toNat ≥ 65 ∧ c.toNat ≤ 90 then Char.ofNat (c.toNat + 32) else c)
      = pyIsSpace c
  split
  · rename_i h
    obtain ⟨h1, h2⟩ := h
    have ht : (Char.ofNat (c.toNat + 32)).toNat = c.toNat + 32 :=
      char_toNat_ofNat_valid (Or.inl (by omega))
    unfold pyIsSpace
    rw [ht,
        decide_eq_false (by omega : ¬ c.toNat + 32 = 32),
        decide_eq_false (by omega : ¬ c.toNat + 32 = 9),
        decide_eq_false (by omega : ¬ c.toNat + 32 = 10),
        decide_eq_false (by omega : ¬ c.toNat + 32 = 13),
        decide_eq_false (by omega : ¬ c.toNat + 32 = 11),
        decide_eq_false (by omega : ¬ c.toNat + 32 = 12),
        decide_eq_false (by omega : ¬ c.toNat = 32),
        decide_eq_false (by omega : ¬ c.toNat = 9),
        decide_eq_false (by omega : ¬ c.toNat = 10),
        decide_eq_false (by omega : ¬ c.toNat = 13),
        decide_eq_false (by omega : ¬ c.toNat = 11),
        decide_eq_false (by omega : ¬ c.toNat = 12)]
  · rfl

theorem pyStrip_pyLower (s : String) : pyStrip (pyLower s) = pyLower (pyStrip s) := by
  have hp : pyIsSpace ∘ Char.toLower = pyIsSpace := funext pyIsSpace_toLower
  show String.mk ((((s.data.map Char.toLower).dropWhile pyIsSpace).reverse.dropWhile
        pyIsSpace).reverse)
      = String.mk ((((s.data.dropWhile pyIsSpace).reverse.dropWhile
        pyIsSpace).reverse.map Char.toLower))
  rw [List.dropWhile_map, hp, ← List.map_reverse, List.dropWhile_map, hp,
    ← List.map_reverse]

/-! ### Claim theorems -/

/-- C6: for every (host, principal, target-database) triple the
partition identifier is a pure deterministic function of the triple —
`generate_thread_id` yields `"thread_"` followed by the first 32 hex
characters of the SHA-256 of `"host::user::database"` — and
`get_or_create_session` returns this same identifier whether or not the
durable-store upsert fails, so a store outage changes no caller-visible
identifier. -/
theorem C6_thread_id_deterministic (ok1 ok2 : Bool) (host user database : String) :
    (get_or_create_session ok1 host user database).1
      = generate_thread_id host user database
    ∧ (get_or_create_session ok1 host user database).1
      = (get_or_create_session ok2 host user database).1
    ∧ generate_thread_id host user database
      = "thread_" ++ (sha256hex (host ++ "::" ++ user ++ "::" ++ database)).take 32 := by
  cases ok1 <;> cases ok2 <;> exact ⟨rfl, rfl, rfl⟩

/-- C7: the context built by `_build_rolling_context` contains at most
`RECENT_MESSAGES_COUNT` (40) recent turns, for every partition state,
with or without an existing summary. -/
theorem C7_window_cap (st : PartitionState) :
    (build_rolling_context st).recent_formatted.length ≤ RECENT_MESSAGES_COUNT := by
  have hcap : ∀ l : List ChatMessage,
      (format_history_for_llm
        (if l.length > RECENT_MESSAGES_COUNT then
          l.drop (l.length - RECENT_MESSAGES_COUNT)
        else l)).length ≤ RECENT_MESSAGES_COUNT := by
    intro l
    refine Nat.le_trans (List.length_filterMap_le _ _) ?_
    split
    · rw [List.length_drop]
      omega
    · omega
  obtain ⟨msgs, summ⟩ := st
  cases summ with
  | some existing => exact hcap _
  | none =>
    refine Nat.le_trans (List.length_filterMap_le _ _) ?_
    have hrec : (get_recent_messages msgs RECENT_MESSAGES_COUNT).length
        ≤ RECENT_MESSAGES_COUNT := by
      unfold get_recent_messages
      rw [List.length_reverse, List.length_take]
      omega
    split
    · rw [List.length_drop]
      omega
    · exact hrec

/-- C10 helper: a nonempty first token means the string is nonempty. -/
theorem firstTokenUpper_ne_empty {s : String} {w : String}
    (h : firstTokenUpper s = some w) : s ≠ "" := by
  intro hs
  rw [hs] at h
  exact Option.noConfusion h

/-- C10: `_is_destructive` returns `True` exactly when the string is
non-empty and its first whitespace-separated token, uppercased, is one
of DELETE, DROP, TRUNCATE, UPDATE (on a non-empty all-whitespace string
the source raises `IndexError`, modelled as `none`, so it never returns
`True` there either); consequently a final query whose first token
uppercases to UPDATE yields `requires_confirmation = True` while the
risk-level fallback classifies it as only MEDIUM. -/
theorem C10_is_destructive_iff (s : String) :
    (is_destructive (some s) = some true ↔
      s ≠ "" ∧ ∃ w, firstTokenUpper s = some w ∧
        (w = "DELETE" ∨ w = "DROP" ∨ w = "TRUNCATE" ∨ w = "UPDATE"))
    ∧ (firstTokenUpper s = some "UPDATE" →
        is_destructive (some s) = some true ∧ infer_risk_level s = some "MEDIUM") := by
  constructor
  · simp only [is_destructive]
    by_cases hs : s = ""
    · rw [if_pos hs]
      constructor
      · intro h
        exact absurd (Option.some.inj h) (by decide)
      · rintro ⟨hne, -⟩
        exact absurd hs hne
    · rw [if_neg hs]
      cases hft : firstTokenUpper s with
      | none =>
        constructor
        · intro h
          simp at h
        · rintro ⟨-, w, hw, -⟩
          exact Option.noConfusion hw
      | some w =>
        constructor
        · intro h
          have hd := Option.some.inj h
          refine ⟨hs, w, rfl, ?_⟩
          exact of_decide_eq_true hd
        · rintro ⟨-, w', hw', hmem⟩
          obtain rfl : w = w' := Option.some.inj hw'
          show some (decide _) = some true
          rw [decide_eq_true hmem]
  · intro hupd
    have hs : s ≠ "" := firstTokenUpper_ne_empty hupd
    constructor
    · simp only [is_destructive]
      rw [if_neg hs, hupd]
      decide
    · simp only [infer_risk_level]
      rw [if_neg hs, hupd]
      decide

/-- C10 witness: the theorem instantiated at `"update t set a = 2"`. -/
theorem C10_witness :
    firstTokenUpper "update t set a = 2" = some "UPDATE"
    ∧ (is_destructive (some "update t set a = 2") = some true
       ∧ infer_risk_level "update t set a = 2" = some "MEDIUM") :=
  ⟨by decide, (C10_is_destructive_iff "update t set a = 2").2 (by decide)⟩

/-- The inferred fallback risk for a query whose first token uppercases
to `w`. -/
theorem infer_of_firstToken {sql w : String} (h : firstTokenUpper sql = some w) :
    infer_risk_level sql =
      some (if w = "DELETE" ∨ w = "DROP" ∨ w = "TRUNCATE" then "HIGH"
            else if w = "UPDATE" ∨ w = "INSERT" ∨ w = "ALTER" ∨ w = "CREATE" then
              "MEDIUM"
            else "LOW") := by
  have hs : sql ≠ "" := firstTokenUpper_ne_empty h
  simp only [infer_risk_level]
  rw [if_neg hs, h]

/-- `_infer_risk_level` only ever returns one of the three recognized
levels. -/
theorem infer_risk_level_mem {sql r : String} (h : infer_risk_level sql = some r) :
    r = "LOW" ∨ r = "MEDIUM" ∨ r = "HIGH" := by
  simp only [infer_risk_level] at h
  split at h
  · exact Or.inl (Option.some.inj h).symm
  · cases hft : firstTokenUpper sql with
    | none =>
      rw [hft] at h
      exact Option.noConfusion h
    | some w =>
      rw [hft] at h
      rw [(Option.some.inj h).symm]
      split
      · exact Or.inr (Or.inr rfl)
      · split
        · exact Or.inr (Or.inl rfl)
        · exact Or.inl rfl

/-- The three recognized levels are fixed by strip-then-uppercase. -/
theorem risk_norm_fixed {r : String} (h : r = "LOW" ∨ r = "MEDIUM" ∨ r = "HIGH") :
    pyUpper (pyStrip r) = r := by
  rcases h with rfl | rfl | rfl <;> decide

/-- The condition under which the risk-normalization block of
`_run_optimizer_pipeline` falls back to `_infer_risk_level`: the
validator produced no `RISK_LEVEL:` line, or the line it produced does
not normalize to one of the three recognized levels. -/
def riskTagFallsBack (tag : Option String) : Prop :=
  ∀ t, tag = some t →
    ¬ (pyUpper (pyStrip t) = "LOW" ∨ pyUpper (pyStrip t) = "MEDIUM"
       ∨ pyUpper (pyStrip t) = "HIGH")

/-- When the tagged risk is missing or unrecognized, the resolved risk
is exactly the inferred fallback. -/
theorem resolve_fallback {tag : Option String} {sql : String}
    (h : riskTagFallsBack tag) :
    resolve_risk_level tag sql = infer_risk_level sql := by
  simp only [resolve_risk_level]
  cases tag with
  | none =>
    cases hinf : infer_risk_level sql with
    | none => simp only [hinf]; try decide
    | some r =>
      rcases infer_risk_level_mem hinf with rfl | rfl | rfl <;>
        (simp only [hinf]; decide)
  | some t =>
    by_cases ht0 : t = ""
    · subst ht0
      cases hinf : infer_risk_level sql with
      | none => simp only [hinf]; try decide
      | some r =>
        rcases infer_risk_level_mem hinf with rfl | rfl | rfl <;>
          (simp only [hinf]; decide)
    · have hinv := h t rfl
      show (match (if t = "" then infer_risk_level sql else some t) with
            | none => none
            | some r0 =>
              if pyUpper (pyStrip r0) = "LOW" ∨ pyUpper (pyStrip r0) = "MEDIUM"
                  ∨ pyUpper (pyStrip r0) = "HIGH" then
                some (pyUpper (pyStrip r0))
              else infer_risk_level sql)
          = infer_risk_level sql
      rw [if_neg ht0]
      show (if pyUpper (pyStrip t) = "LOW" ∨ pyUpper (pyStrip t) = "MEDIUM"
              ∨ pyUpper (pyStrip t) = "HIGH" then
              some (pyUpper (pyStrip t))
            else infer_risk_level sql)
          = infer_risk_level sql
      rw [if_neg hinv]

/-- C8: whenever the validator stage yields no risk classification (or
one outside the three recognized levels), the report's risk level is
the deterministic fallback from the final query's leading verb:
delete/drop/truncate ⇒ HIGH, update/insert/alter/create ⇒ MEDIUM, any
other leading verb (in particular the read-only ones) ⇒ LOW. -/
theorem C8_risk_fallback (o1 o2 : StageOut) (original_sql w : String)
    (hfall : riskTagFallsBack o2.risk)
    (hw : firstTokenUpper
      (orElseStr o2.extracted_sql (orElseStr o1.extracted_sql original_sql))
      = some w) :
    ∃ rep, run_optimizer_pipeline (some o1) (some o2) original_sql = some rep
      ∧ rep.risk_level =
          (if w = "DELETE" ∨ w = "DROP" ∨ w = "TRUNCATE" then "HIGH"
           else if w = "UPDATE" ∨ w = "INSERT" ∨ w = "ALTER" ∨ w = "CREATE" then
             "MEDIUM"
           else "LOW") := by
  simp only [run_optimizer_pipeline]
  rw [resolve_fallback hfall, infer_of_firstToken hw]
  exact ⟨_, rfl, rfl⟩

/-- C8 witness: validator extracts `DROP TABLE t` and reports the
unrecognized risk tag `CRITICAL`; the report resolves to HIGH. -/
theorem C8_witness :
    riskTagFallsBack (some "CRITICAL")
    ∧ ∃ rep,
        run_optimizer_pipeline (some { extracted_sql := none })
          (some { extracted_sql := some "DROP TABLE t", risk := some "CRITICAL" })
          "SELECT 1" = some rep
        ∧ rep.risk_level = "HIGH" := by
  have hfall : riskTagFallsBack (some "CRITICAL") := by
    intro t ht
    obtain rfl := Option.some.inj ht.symm
    decide
  refine ⟨hfall, ?_⟩
  obtain ⟨rep, h1, h2⟩ :=
    C8_risk_fallback { extracted_sql := none }
      { extracted_sql := some "DROP TABLE t", risk := some "CRITICAL" }
      "SELECT 1" "DROP" hfall (by decide)
  exact ⟨rep, h1, h2.trans (by decide)⟩

/-- C9 counterexample: the optimizer stage rewrites `SELECT  1` (two
internal spaces) to `SELECT 1`; the two texts differ only in
whitespace, yet the report's `was_modified` flag is `True`, because
the source comparison only strips leading/trailing whitespace and does
not normalize internal whitespace. -/
theorem C9_counterexample :
    (run_optimizer_pipeline (some { extracted_sql := some "SELECT 1" })
        (some { risk := some "LOW" }) "SELECT  1").map (·.was_modified) = some true
    ∧ (run_optimizer_pipeline (some { extracted_sql := some "SELECT 1" })
        (some { risk := some "LOW" }) "SELECT  1").map (·.original_sql)
        = some "SELECT  1"
    ∧ (run_optimizer_pipeline (some { extracted_sql := some "SELECT 1" })
        (some { risk := some "LOW" }) "SELECT  1").map (·.final_sql)
        = some "SELECT 1" := by
  decide

/-- C9 (amended): `was_modified` is true exactly when the original and
final query texts differ after trimming leading/trailing whitespace
and lowercasing; in particular texts equal up to letter case, or equal
up to leading/trailing whitespace, give `was_modified = false`
(internal whitespace differences do count as modified). -/
theorem C9_was_modified (o1 o2 : StageOut) (original_sql : String)
    (rep : OptimizerReport)
    (h : run_optimizer_pipeline (some o1) (some o2) original_sql = some rep) :
    (rep.was_modified = true ↔
      pyLower (pyStrip rep.final_sql) ≠ pyLower (pyStrip rep.original_sql))
    ∧ (pyLower rep.final_sql = pyLower rep.original_sql → rep.was_modified = false)
    ∧ (pyStrip rep.final_sql = pyStrip rep.original_sql → rep.was_modified = false) := by
  cases hr : resolve_risk_level o2.risk
      (orElseStr o2.extracted_sql (orElseStr o1.extracted_sql original_sql)) with
  | none =>
    simp only [run_optimizer_pipeline, hr] at h
    exact Option.noConfusion h
  | some risk =>
    simp only [run_optimizer_pipeline, hr] at h
    obtain rfl := (Option.some.inj h).symm
    dsimp only
    refine ⟨bne_iff_ne, ?_, ?_⟩
    · intro hcase
      have hyp : pyLower (pyStrip (orElseStr o2.extracted_sql
            (orElseStr o1.extracted_sql original_sql)))
          = pyLower (pyStrip original_sql) := by
        rw [← pyStrip_pyLower, ← pyStrip_pyLower, hcase]
      rw [hyp]
      exact bne_self_eq_false _
    · intro hstrip
      rw [hstrip]
      exact bne_self_eq_false _

/-- C9 witness: instantiating the amended theorem where the optimizer
lowercases the query: `select * from T` vs `SELECT * FROM T` gives
`was_modified = false`. -/
theorem C9_witness :
    run_optimizer_pipeline (some { extracted_sql := some "select * from T" })
        (some { risk := some "LOW" }) "SELECT * FROM T"
      = some { original_sql := "SELECT * FROM T",
               optimized_sql := "select * from T",
               final_sql := "select * from T",
               optimizer_notes := "No changes needed",
               validator_notes := "Validated — no issues found",
               risk_level := "LOW",
               was_modified := false }
    ∧ ({ original_sql := "SELECT * FROM T",
         optimized_sql := "select * from T",
         final_sql := "select * from T",
         optimizer_notes := "No changes needed",
         validator_notes := "Validated — no issues found",
         risk_level := "LOW",
         was_modified := false } : OptimizerReport).was_modified = false := by
  refine ⟨by decide, ?_⟩
  exact (C9_was_modified { extracted_sql := some "select * from T" }
      { risk := some "LOW" } "SELECT * FROM T" _ (by decide)).2.1 (by decide)

/-- An engine whose every call fails with error text `"boom"`. -/
def engineAlwaysFail : Nat → String → QueryResult :=
  fun _ q => { success := false, query := q, error := some "boom" }

/-- A healer that echoes back the failing query unchanged. -/
def healerEcho : Nat → String → String → Option String :=
  fun _ q _ => some q

/-- A healer whose correction always differs (after trimming) from the
failing query: it answers `"B"` to a query that trims to `"A"` and
`"A"` to everything else. -/
def healerFlip : Nat → String → String → Option String :=
  fun _ q _ => some (if pyStrip q = "A" then "B" else "A")

/-- C4: at any state of the healing loop where the engine call fails,
the attempt counter is below `MAX_HEAL_ATTEMPTS`, and the oracle's
correction is absent, empty, or trim-equal to the query that just
failed, the loop stops at once: it returns that failing result, the
heal log exactly as it was before the oracle call (no entry appended),
and performs no engine call beyond the failing one. -/
theorem C4_early_stop_on_noop (engine : Nat → String → QueryResult)
    (healer : Nat → String → String → Option String)
    (fuel attempt : Nat) (current_sql : String) (heal_log : List HealAttempt)
    (hfail : (engine attempt current_sql).success = false)
    (hnotmax : attempt ≠ MAX_HEAL_ATTEMPTS)
    (hnoop :
      healer attempt current_sql
          (errorOrUnknown (engine attempt current_sql).error) = none
      ∨ ∃ c, healer attempt current_sql
          (errorOrUnknown (engine attempt current_sql).error) = some c
          ∧ (c = "" ∨ pyStrip c = pyStrip current_sql)) :
    healLoop engine healer fuel attempt current_sql heal_log
      = (engine attempt current_sql, heal_log, 1) := by
  rcases hnoop with hnone | ⟨c, hc, hcase⟩
  · rw [healLoop]
    simp [hfail, hnotmax, hnone]
  · rw [healLoop]
    rcases hcase with h0 | hps
    · simp [hfail, hnotmax, hc, h0]
    · simp [hfail, hnotmax, hc, hps]

/-- C4 witness: a failing engine with an echoing healer stops after the
single failing engine call with an empty heal log. -/
theorem C4_witness :
    (engineAlwaysFail 0 "SELECT 1").success = false
    ∧ (0 : Nat) ≠ MAX_HEAL_ATTEMPTS
    ∧ healerEcho 0 "SELECT 1"
        (errorOrUnknown (engineAlwaysFail 0 "SELECT 1").error) = some "SELECT 1"
    ∧ healLoop engineAlwaysFail healerEcho MAX_HEAL_ATTEMPTS 0 "SELECT 1" []
        = (engineAlwaysFail 0 "SELECT 1", [], 1) :=
  ⟨rfl, by decide, rfl,
   C4_early_stop_on_noop engineAlwaysFail healerEcho MAX_HEAL_ATTEMPTS 0
     "SELECT 1" [] rfl (by decide)
     (Or.inr ⟨"SELECT 1", rfl, Or.inr rfl⟩)⟩

/-- The loop at fuel `f` performs at most `f + 1` engine calls, for
every engine and healer. -/
theorem healLoop_calls_le (engine : Nat → String → QueryResult)
    (healer : Nat → String → String → Option String) :
    ∀ fuel attempt sql log,
      (healLoop engine healer fuel attempt sql log).2.2 ≤ fuel + 1 := by
  intro fuel
  induction fuel with
  | zero =>
    intro attempt sql log
    rw [healLoop]
    dsimp only
    split
    · exact Nat.le_refl 1
    · split
      · exact Nat.le_refl 1
      · split
        · exact Nat.le_refl 1
        · split
          · exact Nat.le_refl 1
          · exact Nat.le_refl 1
  | succ fuel ih =>
    intro attempt sql log
    rw [healLoop]
    dsimp only
    split
    · exact Nat.le_add_left 1 _
    · split
      · exact Nat.le_add_left 1 _
      · split
        · exact Nat.le_add_left 1 _
        · split
          · exact Nat.le_add_left 1 _
          · exact Nat.succ_le_succ (ih _ _ _)

/-- When the engine fails every call and the healer always produces a
usable (non-empty, not trim-equal) correction, the loop started at
`attempt + fuel = MAX_HEAL_ATTEMPTS` exhausts its budget: failing
result, `fuel` new log entries, `fuel + 1` engine calls, all entries
unsuccessful. -/
theorem healLoop_exhaust (engine : Nat → String → QueryResult)
    (healer : Nat → String → String → Option String)
    (hE : ∀ i q, (engine i q).success = false)
    (hH : ∀ i q e, ∃ c, healer i q e = some c ∧ c ≠ "" ∧ pyStrip c ≠ pyStrip q) :
    ∀ fuel attempt sql log, attempt + fuel = MAX_HEAL_ATTEMPTS →
      (∀ a ∈ log, a.success = false) →
      (healLoop engine healer fuel attempt sql log).1.success = false
      ∧ (healLoop engine healer fuel attempt sql log).2.1.length = log.length + fuel
      ∧ (healLoop engine healer fuel attempt sql log).2.2 = fuel + 1
      ∧ ∀ a ∈ (healLoop engine healer fuel attempt sql log).2.1,
          a.success = false := by
  intro fuel
  induction fuel with
  | zero =>
    intro attempt sql log hmax hlog
    have ha : attempt = MAX_HEAL_ATTEMPTS := by omega
    have hred : healLoop engine healer 0 attempt sql log
        = (engine attempt sql, log, 1) := by
      rw [healLoop]
      simp [hE, ha]
    rw [hred]
    exact ⟨hE attempt sql, rfl, rfl, hlog⟩
  | succ fuel ih =>
    intro attempt sql log hmax hlog
    have hne : attempt ≠ MAX_HEAL_ATTEMPTS := by omega
    obtain ⟨c, hc, hc0, hcs⟩ :=
      hH attempt sql (errorOrUnknown (engine attempt sql).error)
    set ent : HealAttempt :=
      { attempt_no := attempt + 1, original_sql := sql,
        error_message := errorOrUnknown (engine attempt sql).error,
        corrected_sql := c, success := false, execution_ms := 0 } with hent
    have hred : healLoop engine healer (fuel + 1) attempt sql log
        = ((healLoop engine healer fuel (attempt + 1) c (log ++ [ent])).1,
           (healLoop engine healer fuel (attempt + 1) c (log ++ [ent])).2.1,
           (healLoop engine healer fuel (attempt + 1) c (log ++ [ent])).2.2 + 1) := by
      rw [healLoop]
      simp [hE, hne, hc, hc0, hcs, hent]
    have hlog2 : ∀ a ∈ log ++ [ent], a.success = false := by
      intro a ha
      rcases List.mem_append.mp ha with h | h
      · exact hlog a h
      · rw [List.mem_singleton.mp h, hent]
    obtain ⟨r1, r2, r3, r4⟩ := ih (attempt + 1) c (log ++ [ent]) (by omega) hlog2
    rw [hred]
    refine ⟨r1, ?_, ?_, r4⟩
    · rw [r2, List.length_append]
      simp
      omega
    · rw [r3]

/-- C1 counterexample: `engineAlwaysFail` fails every execution, yet
with the echoing healer (`healerEcho`, whose correction always equals
the failing query) `execute_with_healing` returns after a single engine
call with a heal log of length 0, not `MAX_HEAL_ATTEMPTS` — the claim's
conclusion fails for this oracle correction function. -/
theorem C1_counterexample :
    (execute_with_healing (some "shop_db") engineAlwaysFail healerEcho
        "SELECT 1").2.1.length = 0
    ∧ ¬ ((execute_with_healing (some "shop_db") engineAlwaysFail healerEcho
        "SELECT 1").2.1.length = MAX_HEAL_ATTEMPTS) := by
  decide

/-- C1 (amended): if the engine fails every execution then
`execute_with_healing` performs at most `MAX_HEAL_ATTEMPTS + 1` engine
calls; if additionally every oracle correction is non-empty and differs
(after trimming) from the query it corrects, the loop terminates
exhausted: it performs exactly `MAX_HEAL_ATTEMPTS + 1` engine calls and
returns the last failing result together with a heal log of length
`MAX_HEAL_ATTEMPTS` whose entries are all unsuccessful. -/
theorem C1_bounded_retries (db : Option String)
    (engine : Nat → String → QueryResult)
    (healer : Nat → String → String → Option String) (sql : String)
    (hdb : ¬ (db = none ∨ db = some ""))
    (hE : ∀ i q, (engine i q).success = false) :
    (execute_with_healing db engine healer sql).2.2 ≤ MAX_HEAL_ATTEMPTS + 1
    ∧ ((∀ i q e, ∃ c, healer i q e = some c ∧ c ≠ "" ∧ pyStrip c ≠ pyStrip q) →
        (execute_with_healing db engine healer sql).1.success = false
        ∧ (execute_with_healing db engine healer sql).2.1.length
            = MAX_HEAL_ATTEMPTS
        ∧ (execute_with_healing db engine healer sql).2.2
            = MAX_HEAL_ATTEMPTS + 1
        ∧ ∀ a ∈ (execute_with_healing db engine healer sql).2.1,
            a.success = false) := by
  unfold execute_with_healing
  rw [if_neg hdb]
  refine ⟨healLoop_calls_le engine healer MAX_HEAL_ATTEMPTS 0 sql [], fun hH => ?_⟩
  obtain ⟨r1, r2, r3, r4⟩ :=
    healLoop_exhaust engine healer hE hH MAX_HEAL_ATTEMPTS 0 sql [] (by decide)
      (by intro a ha; exact absurd ha (List.not_mem_nil a))
  exact ⟨r1, r2, r3, r4⟩

/-- C1 witness: the amended theorem at `engineAlwaysFail` with a healer
whose correction always differs from the failing query after trimming:
4 engine calls, heal log of length 3. -/
theorem C1_witness :
    (∀ i q, (engineAlwaysFail i q).success = false)
    ∧ (execute_with_healing (some "shop_db") engineAlwaysFail healerFlip
        "SELECT 1").2.2 ≤ MAX_HEAL_ATTEMPTS + 1
    ∧ (execute_with_healing (some "shop_db") engineAlwaysFail healerFlip
        "SELECT 1").2.1.length = MAX_HEAL_ATTEMPTS
    ∧ (execute_with_healing (some "shop_db") engineAlwaysFail healerFlip
        "SELECT 1").1.success = false := by
  have hE : ∀ i q, (engineAlwaysFail i q).success = false := fun _ _ => rfl
  have hH : ∀ i q e, ∃ c, healerFlip i q e = some c ∧ c ≠ ""
      ∧ pyStrip c ≠ pyStrip q := by
    intro i q e
    by_cases h : pyStrip q = "A"
    · refine ⟨"B", ?_, by decide, ?_⟩
      · show some (if pyStrip q = "A" then "B" else "A") = some "B"
        rw [if_pos h]
      · rw [h]
        decide
    · refine ⟨"A", ?_, by decide, ?_⟩
      · show some (if pyStrip q = "A" then "B" else "A") = some "A"
        rw [if_neg h]
      · intro hc
        exact h (by rw [← hc]; decide)
  have hmain := C1_bounded_retries (some "shop_db") engineAlwaysFail healerFlip
    "SELECT 1" (by decide) hE
  have hfull := hmain.2 hH
  exact ⟨hE, hmain.1, hfull.2.1, hfull.1⟩

/-- One failing loop iteration with a usable correction: append the
attempt record and continue with the corrected query. -/
theorem healLoop_fail_step (engine : Nat → String → QueryResult)
    (healer : Nat → String → String → Option String)
    (fuel attempt : Nat) (sql : String) (log : List HealAttempt) (c : String)
    (hfail : (engine attempt sql).success = false)
    (hne : attempt ≠ MAX_HEAL_ATTEMPTS)
    (hc : healer attempt sql (errorOrUnknown (engine attempt sql).error) = some c)
    (hc0 : c ≠ "") (hcs : pyStrip c ≠ pyStrip sql) :
    healLoop engine healer (fuel + 1) attempt sql log
      = ((healLoop engine healer fuel (attempt + 1) c
            (log ++ [{ attempt_no := attempt + 1, original_sql := sql,
                       error_message := errorOrUnknown (engine attempt sql).error,
                       corrected_sql := c, success := false,
                       execution_ms := 0 }])).1,
         (healLoop engine healer fuel (attempt + 1) c
            (log ++ [{ attempt_no := attempt + 1, original_sql := sql,
                       error_message := errorOrUnknown (engine attempt sql).error,
                       corrected_sql := c, success := false,
                       execution_ms := 0 }])).2.1,
         (healLoop engine healer fuel (attempt + 1) c
            (log ++ [{ attempt_no := attempt + 1, original_sql := sql,
                       error_message := errorOrUnknown (engine attempt sql).error,
                       corrected_sql := c, success := false,
                       execution_ms := 0 }])).2.2 + 1) := by
  rw [healLoop]
  simp [hfail, hne, hc, hc0, hcs]

/-- A successful engine call ends the loop, marking the last heal-log
entry successful when this was a healed attempt. -/
theorem healLoop_success_step (engine : Nat → String → QueryResult)
    (healer : Nat → String → String → Option String)
    (fuel attempt : Nat) (sql : String) (log : List HealAttempt)
    (hs : (engine attempt sql).success = true) :
    healLoop engine healer fuel attempt sql log
      = (engine attempt sql,
         if attempt > 0 then
           markLastSuccess (engine attempt sql).execution_ms log
         else log,
         1) := by
  rw [healLoop]
  simp [hs]

/-- C5 counterexample: initial query fails, two distinct non-empty
corrections, third engine call succeeds.  The heal log has length 2 but
its entries are marked `[false, true]` — only the entry that directly
preceded the success is marked successful, so the claim's "both entries
marked successful = true" is false at this input. -/
theorem C5_counterexample :
    ((execute_with_healing (some "shop_db")
        (fun i q => if i ≥ 2 then { success := true, query := q, execution_ms := 5 }
                    else { success := false, query := q, error := some "err" })
        (fun i _ _ => if i = 0 then some "Q1" else some "Q2") "Q0").1.success
      = true)
    ∧ ((execute_with_healing (some "shop_db")
        (fun i q => if i ≥ 2 then { success := true, query := q, execution_ms := 5 }
                    else { success := false, query := q, error := some "err" })
        (fun i _ _ => if i = 0 then some "Q1" else some "Q2") "Q0").2.1.map
          (·.success) = [false, true])
    ∧ ¬ (∀ a ∈ (execute_with_healing (some "shop_db")
        (fun i q => if i ≥ 2 then { success := true, query := q, execution_ms := 5 }
                    else { success := false, query := q, error := some "err" })
        (fun i _ _ => if i = 0 then some "Q1" else some "Q2") "Q0").2.1,
          a.success = true) := by
  refine ⟨by decide, by decide, ?_⟩
  intro hall
  have := hall ((execute_with_healing (some "shop_db")
        (fun i q => if i ≥ 2 then { success := true, query := q, execution_ms := 5 }
                    else { success := false, query := q, error := some "err" })
        (fun i _ _ => if i = 0 then some "Q1" else some "Q2") "Q0").2.1.head
      (by decide)) (by decide)
  revert this
  decide

/-- C5 (amended): if the initial query fails, the oracle produces two
successive usable corrections `c1 ≠ c2`, the first corrected query also
fails and the second succeeds, then `execute_with_healing` makes
exactly 3 engine calls and returns the successful result with a heal
log of length 2 whose second entry is marked successful (with the
success's latency) while the first entry remains unsuccessful. -/
theorem C5_heal_twice_then_success (db : Option String)
    (engine : Nat → String → QueryResult)
    (healer : Nat → String → String → Option String) (sql c1 c2 : String)
    (hdb : ¬ (db = none ∨ db = some ""))
    (h0 : (engine 0 sql).success = false)
    (hh0 : healer 0 sql (errorOrUnknown (engine 0 sql).error) = some c1)
    (hc1ne : c1 ≠ "") (hc1s : pyStrip c1 ≠ pyStrip sql)
    (h1 : (engine 1 c1).success = false)
    (hh1 : healer 1 c1 (errorOrUnknown (engine 1 c1).error) = some c2)
    (hc2ne : c2 ≠ "") (hc2s : pyStrip c2 ≠ pyStrip c1)
    (h2 : (engine 2 c2).success = true) :
    execute_with_healing db engine healer sql
      = (engine 2 c2,
         [{ attempt_no := 1, original_sql := sql,
            error_message := errorOrUnknown (engine 0 sql).error,
            corrected_sql := c1, success := false, execution_ms := 0 },
          { attempt_no := 2, original_sql := c1,
            error_message := errorOrUnknown (engine 1 c1).error,
            corrected_sql := c2, success := true,
            execution_ms := (engine 2 c2).execution_ms }],
         3) := by
  unfold execute_with_healing
  rw [if_neg hdb]
  have s1 := healLoop_fail_step engine healer 2 0 sql [] c1 h0 (by decide)
    hh0 hc1ne hc1s
  norm_num [List.nil_append] at s1
  have s2 := healLoop_fail_step engine healer 1 1 c1
    [{ attempt_no := 1, original_sql := sql,
       error_message := errorOrUnknown (engine 0 sql).error,
       corrected_sql := c1, success := false, execution_ms := 0 }] c2 h1
    (by decide) hh1 hc2ne hc2s
  norm_num [List.singleton_append] at s2
  have s3 := healLoop_success_step engine healer 1 2 c2
    [{ attempt_no := 1, original_sql := sql,
       error_message := errorOrUnknown (engine 0 sql).error,
       corrected_sql := c1, success := false, execution_ms := 0 },
     { attempt_no := 2, original_sql := c1,
       error_message := errorOrUnknown (engine 1 c1).error,
       corrected_sql := c2, success := false, execution_ms := 0 }] h2
  norm_num [markLastSuccess] at s3
  rw [show MAX_HEAL_ATTEMPTS = 3 from rfl]
  rw [show (3 : Nat) = 2 + 1 from rfl, s1]
  rw [show (2 : Nat) = 1 + 1 from rfl] at s2
  rw [s2, s3]

/-- The engine of the C5 scenario: fails the first two calls, succeeds
from the third on. -/
def engineC5 : Nat → String → QueryResult :=
  fun i q => if i ≥ 2 then { success := true, query := q, execution_ms := 5 }
             else { success := false, query := q, error := some "err" }

/-- The healer of the C5 scenario: two successive distinct corrections. -/
def healerC5 : Nat → String → String → Option String :=
  fun i _ _ => if i = 0 then some "Q1" else some "Q2"

/-- C5 witness: the amended theorem at the concrete two-corrections
scenario. -/
theorem C5_witness :
    (engineC5 0 "Q0").success = false
    ∧ (engineC5 2 "Q2").success = true
    ∧ execute_with_healing (some "shop_db") engineC5 healerC5 "Q0"
        = (engineC5 2 "Q2",
           [{ attempt_no := 1, original_sql := "Q0",
              error_message := errorOrUnknown (engineC5 0 "Q0").error,
              corrected_sql := "Q1", success := false, execution_ms := 0 },
            { attempt_no := 2, original_sql := "Q1",
              error_message := errorOrUnknown (engineC5 1 "Q1").error,
              corrected_sql := "Q2", success := true,
              execution_ms := (engineC5 2 "Q2").execution_ms }],
           3) :=
  ⟨by decide, by decide,
   C5_heal_twice_then_success (some "shop_db") engineC5 healerC5 "Q0" "Q1" "Q2"
     (by decide) (by decide) (by decide) (by decide) (by decide) (by decide)
     (by decide) (by decide) (by decide) (by decide)⟩


/-- In a strictly `sequence_no`-sorted message list, the last element
has the largest sequence number. -/
theorem pairwise_seq_le_getLast :
    ∀ (l : List ChatMessage) (x : ChatMessage),
      l.Pairwise (fun a b => a.sequence_no < b.sequence_no) →
      l.getLast? = some x → ∀ a ∈ l, a.sequence_no ≤ x.sequence_no := by
  intro l
  induction l with
  | nil =>
    intro x _ hx
    simp at hx
  | cons b t ih =>
    intro x hp hx a ha
    cases t with
    | nil =>
      have hbx : b = x := by simpa using hx
      have hab : a = b := by simpa using ha
      rw [hab, hbx]
    | cons b2 t2 =>
      have hx2 : (b2 :: t2).getLast? = some x := by
        rw [← List.getLast?_cons_cons (a := b)]
        exact hx
      rcases List.mem_cons.mp ha with rfl | hat
      · have hxmem : x ∈ b2 :: t2 := List.mem_of_getLast?_eq_some hx2
        exact Nat.le_of_lt ((List.pairwise_cons.mp hp).1 x hxmem)
      · exact ih x (List.pairwise_cons.mp hp).2 hx2 a hat

/-- In a strictly sorted list `u`, keeping the elements greater than
the last element of `u.take k` keeps exactly `u.drop k`. -/
theorem sorted_window_filter (u : List ChatMessage) (lastMsg : ChatMessage)
    (k : Nat)
    (hpu : u.Pairwise (fun a b => a.sequence_no < b.sequence_no))
    (hsome : (u.take k).getLast? = some lastMsg) :
    u.filter (fun m => lastMsg.sequence_no < m.sequence_no) = u.drop k := by
  have hsplit := List.take_append_drop k u
  have hpu' : (u.take k ++ u.drop k).Pairwise
      (fun a b => a.sequence_no < b.sequence_no) := by
    rw [hsplit]
    exact hpu
  have hcross := (List.pairwise_append.mp hpu').2.2
  have hmem_fold : lastMsg ∈ u.take k := List.mem_of_getLast?_eq_some hsome
  have hfold_le : ∀ a ∈ u.take k, a.sequence_no ≤ lastMsg.sequence_no :=
    pairwise_seq_le_getLast (u.take k) lastMsg
      (List.Pairwise.sublist (List.take_sublist k u) hpu) hsome
  have h1 : (u.take k).filter (fun m => lastMsg.sequence_no < m.sequence_no)
      = [] := by
    rw [List.filter_eq_nil_iff]
    intro a ha
    have := hfold_le a ha
    simp only [decide_eq_true_eq]
    omega
  have h2 : (u.drop k).filter (fun m => lastMsg.sequence_no < m.sequence_no)
      = u.drop k := by
    rw [List.filter_eq_self]
    intro b hb
    simp only [decide_eq_true_eq]
    exact hcross lastMsg hmem_fold b hb
  conv_lhs => rw [← hsplit]
  rw [List.filter_append, h1, h2, List.nil_append]

/-- Raising the cut-off from `low` to the sequence number of a message
above `low` refines the unsummarized set. -/
theorem after_new_bound_eq (msgs : List ChatMessage) (low : Nat)
    (lastMsg : ChatMessage) (hgt_last : low < lastMsg.sequence_no) :
    get_messages_after_seq msgs lastMsg.sequence_no
      = (get_messages_after_seq msgs low).filter
          (fun m => lastMsg.sequence_no < m.sequence_no) := by
  unfold get_messages_after_seq
  rw [List.filter_filter]
  refine (List.filter_congr ?_).symm
  intro m _
  by_cases hm : lastMsg.sequence_no < m.sequence_no
  · have hlow : low < m.sequence_no := Nat.lt_trans hgt_last hm
    simp [hm, hlow]
  · simp [hm]

/-- C2: on a partition whose messages are strictly ordered by sequence
number, with a summarization oracle that succeeds (returns text that
does not strip to empty), `update_summary_if_needed` satisfies the fold
invariant: when the unsummarized count exceeds `RECENT_MESSAGES_COUNT`
the updated state carries a summary whose new `summarized_up_to_seq`
is at least the old one and leaves exactly `RECENT_MESSAGES_COUNT`
messages unsummarized; when the unsummarized count is at most
`RECENT_MESSAGES_COUNT` the state is unchanged. -/
theorem C2_fold_invariant
    (oracle : String → List ChatMessage → Option String)
    (st : PartitionState)
    (hsorted : st.messages.Pairwise (fun a b => a.sequence_no < b.sequence_no))
    (horacle : ∀ ex msgs, ∃ t, oracle ex msgs = some t ∧ pyStrip t ≠ "") :
    ((get_messages_after_seq st.messages (last_seq_of st)).length
        > RECENT_MESSAGES_COUNT →
      ∃ s', (update_summary_if_needed oracle st).summary = some s'
        ∧ (get_messages_after_seq (update_summary_if_needed oracle st).messages
            s'.summarized_up_to_seq).length = RECENT_MESSAGES_COUNT
        ∧ last_seq_of st ≤ s'.summarized_up_to_seq)
    ∧ ((get_messages_after_seq st.messages (last_seq_of st)).length
        ≤ RECENT_MESSAGES_COUNT →
      update_summary_if_needed oracle st = st) := by
  have hpu : (get_messages_after_seq st.messages (last_seq_of st)).Pairwise
      (fun a b => a.sequence_no < b.sequence_no) :=
    List.Pairwise.filter _ hsorted
  constructor
  · intro hgt
    have hcond : ¬ ((get_messages_after_seq st.messages
        (last_seq_of st)).length ≤ RECENT_MESSAGES_COUNT) := by omega
    obtain ⟨lastMsg, hsome⟩ : ∃ x,
        ((get_messages_after_seq st.messages (last_seq_of st)).take
          ((get_messages_after_seq st.messages (last_seq_of st)).length
            - RECENT_MESSAGES_COUNT)).getLast? = some x := by
      cases hl : ((get_messages_after_seq st.messages (last_seq_of st)).take
          ((get_messages_after_seq st.messages (last_seq_of st)).length
            - RECENT_MESSAGES_COUNT)).getLast? with
      | none =>
        rw [List.getLast?_eq_none_iff] at hl
        have hlen := congrArg List.length hl
        rw [List.length_take] at hlen
        simp only [List.length_nil] at hlen
        omega
      | some x => exact ⟨x, rfl⟩
    have hupd : update_summary_if_needed oracle st
        = { st with summary := some ({
            summary_text := summarize_messages oracle
              ((st.summary.map (·.summary_text)).getD "")
              ((get_messages_after_seq st.messages (last_seq_of st)).take
                ((get_messages_after_seq st.messages (last_seq_of st)).length
                  - RECENT_MESSAGES_COUNT)),
            summarized_up_to_seq := lastMsg.sequence_no,
            message_count_summarized :=
              (st.summary.map (·.message_count_summarized)).getD 0
                + ((get_messages_after_seq st.messages (last_seq_of st)).take
                    ((get_messages_after_seq st.messages
                      (last_seq_of st)).length
                      - RECENT_MESSAGES_COUNT)).length }) } := by
      unfold update_summary_if_needed
      dsimp only
      rw [if_neg hcond, hsome]
    have hmem_fold : lastMsg ∈ (get_messages_after_seq st.messages
        (last_seq_of st)).take
          ((get_messages_after_seq st.messages (last_seq_of st)).length
            - RECENT_MESSAGES_COUNT) :=
      List.mem_of_getLast?_eq_some hsome
    have hmem_u : lastMsg ∈ get_messages_after_seq st.messages
        (last_seq_of st) := List.take_subset _ _ hmem_fold
    have hgt_last : last_seq_of st < lastMsg.sequence_no := by
      have := (List.mem_filter.mp hmem_u).2
      exact of_decide_eq_true this
    refine ⟨_, by rw [hupd], ?_, Nat.le_of_lt hgt_last⟩
    rw [hupd]
    show (get_messages_after_seq st.messages lastMsg.sequence_no).length
        = RECENT_MESSAGES_COUNT
    rw [after_new_bound_eq st.messages (last_seq_of st) lastMsg hgt_last,
        sorted_window_filter (get_messages_after_seq st.messages
          (last_seq_of st)) lastMsg
          ((get_messages_after_seq st.messages (last_seq_of st)).length
            - RECENT_MESSAGES_COUNT) hpu hsome,
        List.length_drop]
    omega
  · intro hle
    unfold update_summary_if_needed
    dsimp only
    rw [if_pos hle]

/-- A partition history of `n` alternating-role turns with sequence
numbers `1..n`. -/
def seqMessages (n : Nat) : List ChatMessage :=
  (List.range n).map fun i =>
    { role := "human", content := "m", sql_query := none, sequence_no := i + 1 }

/-- A 41-message partition with no summary yet (one message beyond the
window). -/
def stC2 : PartitionState :=
  { messages := seqMessages 41, summary := none }

/-- C2 witness: the fold invariant instantiated on the 41-message
partition with a constant succeeding oracle. -/
theorem C2_witness :
    (stC2.messages.Pairwise fun a b => a.sequence_no < b.sequence_no)
    ∧ (((get_messages_after_seq stC2.messages (last_seq_of stC2)).length
          > RECENT_MESSAGES_COUNT →
        ∃ s', (update_summary_if_needed (fun _ _ => some "S") stC2).summary
            = some s'
          ∧ (get_messages_after_seq
              (update_summary_if_needed (fun _ _ => some "S") stC2).messages
              s'.summarized_up_to_seq).length = RECENT_MESSAGES_COUNT
          ∧ last_seq_of stC2 ≤ s'.summarized_up_to_seq)
      ∧ ((get_messages_after_seq stC2.messages (last_seq_of stC2)).length
          ≤ RECENT_MESSAGES_COUNT →
        update_summary_if_needed (fun _ _ => some "S") stC2 = stC2)) :=
  ⟨by decide,
   C2_fold_invariant (fun _ _ => some "S") stC2 (by decide)
     (fun ex msgs => ⟨"S", rfl, by decide⟩)⟩

/-- A 42-message partition whose summary covers messages up to
sequence number 1 (41 unsummarized messages). -/
def stC3 : PartitionState :=
  { messages := seqMessages 42,
    summary := some { summary_text := "S", summarized_up_to_seq := 1,
                      message_count_summarized := 1 } }

/-- C3: demonstration of the code bug at the failing input `stC3` with
an oracle whose call raises (`fun _ _ => none`).  The source's
`_summarize_messages` catches the exception and returns the OLD summary
text, and `update_summary_if_needed` then persists that stale text with
an ADVANCED `summarized_up_to_seq` (1 → 2): the summary state is not
left unchanged, and the folded message (sequence number 2) is recorded
as summarized although its content entered no summary — contradicting
the spec's "on oracle failure, leave the existing summary untouched
... the next activation retries". -/
theorem C3_oracle_failure_not_atomic :
    stC3.summary = some { summary_text := "S", summarized_up_to_seq := 1,
                          message_count_summarized := 1 }
    ∧ (update_summary_if_needed (fun _ _ => none) stC3).summary
        = some { summary_text := "S", summarized_up_to_seq := 2,
                 message_count_summarized := 2 }
    ∧ update_summary_if_needed (fun _ _ => none) stC3 ≠ stC3 := by
  refine ⟨rfl, by decide, by decide⟩

end DBMA
